import Mathlib

/-!
Verification of the flake8-pep515 checker (file flake8_pep515/__init__.py).

The development shallowly embeds the three pieces of the plugin:
* the literal classifier, class method of the LITERAL_TYPE enumeration;
* the separator validator find_invalid_sep (a character walk returning the
  position of the first offending character, or no position for valid input:
  the Python sentinel -1 is modelled by Option.none);
* the Checker driver, its per-family width constants and per-family check
  methods, and its run generator.

Machine details mapped to Lean:
* Python str.lower is used by the classifier only to compare against the
  ASCII strings "0b", "0o", "0x" and the ASCII letter e; on those code
  points it coincides with mapping Char.toLower over the characters, which
  is how it is embedded here (pyLower).
* tokenize.TokenInfo is embedded as the structure TokenInfo with the fields
  the checker reads: type, string, start, end positions.
* raise NotImplemented in the two stub methods is modelled by the error
  value PyRaise.notImplemented of an Except result; the run generator is
  modelled as the list of diagnostics yielded before the stream ends or a
  raise aborts it, paired with the raised value when one occurred.
-/

namespace Pep515

/-- Python tokenize.NUMBER token type code. -/
def NUMBER : Nat := 2

/-- The module constant SEPARATOR, an underscore. -/
def SEPARATOR : Char := '_'

/-- The fields of tokenize.TokenInfo that the checker reads.  Positions are
(line, column) pairs. -/
structure TokenInfo where
  type : Nat
  string : String
  start : Nat × Nat
  end_ : Nat × Nat
deriving DecidableEq, Repr

/-- An emitted error: the 4-tuple (line, column, message, None).  The fourth
component of the Python tuple is always None; it is kept as an Option Unit
field so that the shape of the tuple is part of the model. -/
structure Diagnostic where
  line : Nat
  col : Nat
  message : String
  fix : Option Unit
deriving DecidableEq, Repr

/-- The value raised by the two stub check methods (raise NotImplemented). -/
inductive PyRaise where
  | notImplemented
deriving DecidableEq, Repr

/-- The LITERAL_TYPE enumeration. -/
inductive LITERAL_TYPE where
  | DEC
  | BIN
  | OCT
  | HEX
  | POINTFLOAT
  | EXPONENTFLOAT
deriving DecidableEq, Repr

/-- Python str.lower, restricted to the ASCII code points the classifier
compares against (see the file comment). -/
def pyLower (s : List Char) : List Char := s.map Char.toLower

/-- The classifier LITERAL_TYPE.of: inspect string[:2].lower(), then look
for e in string.lower(), then for a dot. -/
def LITERAL_TYPE.of (s : String) : LITERAL_TYPE :=
  if pyLower (s.data.take 2) = ['0', 'b'] then .BIN
  else if pyLower (s.data.take 2) = ['0', 'o'] then .OCT
  else if pyLower (s.data.take 2) = ['0', 'x'] then .HEX
  else if 'e' ∈ pyLower s.data then .EXPONENTFLOAT
  else if '.' ∈ s.data then .POINTFLOAT
  else .DEC

/-- The loop of find_invalid_sep: walk the characters, carrying the index i,
the toplevel flag and the current run length.  Mirrors the Python control
flow: a separator resets the run when it is exactly len_, or spends the one
toplevel concession when the run is shorter; otherwise its index is
returned.  A non-separator character is rejected when the run already
exceeds len_.  At the end of the string the final run must equal len_. -/
def findInvalidSepGo (len_ : Nat) : List Char → Nat → Bool → Nat → Option Nat
  | [], i, _, current_len =>
      if current_len ≠ len_ then some i else none
  | c :: rest, i, toplevel, current_len =>
      if c = SEPARATOR then
        if current_len = len_ then
          findInvalidSepGo len_ rest (i + 1) toplevel 0
        else if current_len < len_ ∧ toplevel then
          findInvalidSepGo len_ rest (i + 1) false 0
        else
          some i
      else if current_len > len_ then
        some i
      else
        findInvalidSepGo len_ rest (i + 1) toplevel (current_len + 1)

/-- find_invalid_sep: returns the position of the invalid separator (or
other offending character), or none for validly separated input (the
Python -1). -/
def find_invalid_sep (s : String) (len_ : Nat) : Option Nat :=
  findInvalidSepGo len_ s.data 0 true 0

/-- The Checker class attributes: per-family separation widths. -/
def Checker.dec_len : Nat := 3

def Checker.bin_len : Nat := 4

def Checker.oct_len : Nat := 4

def Checker.hex_len : Nat := 4

def Checker.point_len : Nat := 3

def Checker.exponent_len : Nat := 3

/-- Checker._check_DEC: validate the whole token text at width dec_len. -/
def Checker.check_DEC (token : TokenInfo) : List Diagnostic :=
  match find_invalid_sep token.string Checker.dec_len with
  | some invalid =>
      [⟨token.start.1, token.start.2 + invalid, "NSP001 DEC Invalid", none⟩]
  | none => []

/-- Checker._check_BIN: validate token.string[2:] at width bin_len. -/
def Checker.check_BIN (token : TokenInfo) : List Diagnostic :=
  match find_invalid_sep (token.string.drop 2) Checker.bin_len with
  | some invalid =>
      [⟨token.start.1, token.start.2 + invalid, "NSP011 BIN Invalid", none⟩]
  | none => []

/-- Checker._check_OCT: validate token.string[2:] at width oct_len. -/
def Checker.check_OCT (token : TokenInfo) : List Diagnostic :=
  match find_invalid_sep (token.string.drop 2) Checker.oct_len with
  | some invalid =>
      [⟨token.start.1, token.start.2 + invalid, "NSP021 OCT Invalid", none⟩]
  | none => []

/-- Checker._check_HEX: validate token.string[2:] at width hex_len. -/
def Checker.check_HEX (token : TokenInfo) : List Diagnostic :=
  match find_invalid_sep (token.string.drop 2) Checker.hex_len with
  | some invalid =>
      [⟨token.start.1, token.start.2 + invalid, "NSP031 HEX Invalid", none⟩]
  | none => []

/-- The dispatch table self._check_for built in __init__: each family is
mapped to its check method.  The two stub methods raise NotImplemented,
modelled by an error result. -/
def Checker.checkFor : LITERAL_TYPE → TokenInfo → Except PyRaise (List Diagnostic)
  | .DEC, token => .ok (Checker.check_DEC token)
  | .BIN, token => .ok (Checker.check_BIN token)
  | .OCT, token => .ok (Checker.check_OCT token)
  | .HEX, token => .ok (Checker.check_HEX token)
  | .POINTFLOAT, _ => .error .notImplemented
  | .EXPONENTFLOAT, _ => .error .notImplemented

/-- The run generator over a finite token stream: non-NUMBER tokens are
skipped; a NUMBER token is classified and dispatched; diagnostics are
yielded in order until the stream ends, or until a dispatch raises, which
aborts the iteration.  The result is the yielded sequence together with
the raised value, when one occurred. -/
def runTokens : List TokenInfo → List Diagnostic × Option PyRaise
  | [] => ([], none)
  | token :: rest =>
      if token.type = NUMBER then
        match Checker.checkFor (LITERAL_TYPE.of token.string) token with
        | .error e => ([], some e)
        | .ok ds =>
            let r := runTokens rest
            (ds ++ r.1, r.2)
      else
        runTokens rest

/-- The Checker instance state: the AST handed to __init__ (opaque to the
checker logic, stood in for by a Nat) and the token stream. -/
structure Checker where
  tree : Nat
  file_tokens : List TokenInfo
deriving DecidableEq, Repr

/-- Checker.run as a function of the instance state. -/
def Checker.run (c : Checker) : List Diagnostic × Option PyRaise :=
  runTokens c.file_tokens

/-! ### Character lemmas bridging Char.toLower with case-insensitive
character tests -/

theorem char_toNat_ofNat (m : Nat) (h : m.isValidChar) :
    (Char.ofNat m).toNat = m := by
  rw [Char.ofNat, dif_pos h]
  simp [Char.ofNatAux, Char.toNat, UInt32.toNat]

theorem char_toNat_inj {c d : Char} (h : c.toNat = d.toNat) : c = d :=
  Char.eq_of_val_eq (UInt32.eq_of_toBitVec_eq (BitVec.eq_of_toNat_eq h))

theorem toNat_toLower (c : Char) :
    c.toLower.toNat =
      if 65 ≤ c.toNat ∧ c.toNat ≤ 90 then c.toNat + 32 else c.toNat := by
  simp only [Char.toLower]
  by_cases h : 65 ≤ c.toNat ∧ c.toNat ≤ 90
  · rw [if_pos h, if_pos h, char_toNat_ofNat _ (Or.inl (by omega))]
  · rw [if_neg h, if_neg h]

/-- Char.toLower sends exactly a lowercase letter and its uppercase partner
to the lowercase letter. -/
theorem toLower_eq_letter (c t u : Char) (h1 : 97 ≤ t.toNat)
    (h2 : t.toNat ≤ 122) (hu : u.toNat + 32 = t.toNat) :
    c.toLower = t ↔ (c = t ∨ c = u) := by
  constructor
  · intro h
    have hn := congrArg Char.toNat h
    rw [toNat_toLower] at hn
    by_cases hc : 65 ≤ c.toNat ∧ c.toNat ≤ 90
    · rw [if_pos hc] at hn
      exact Or.inr (char_toNat_inj (by omega))
    · rw [if_neg hc] at hn
      exact Or.inl (char_toNat_inj hn)
  · rintro (rfl | rfl)
    · exact char_toNat_inj (by rw [toNat_toLower, if_neg (by omega)])
    · exact char_toNat_inj (by rw [toNat_toLower, if_pos (by omega)]; omega)

/-- Char.toLower fixes every character that is not an uppercase letter and
is only reached from such characters when the target is not a lowercase
letter image. -/
theorem toLower_eq_nonletter (c t : Char) (h1 : t.toNat < 97)
    (h2 : ¬(65 ≤ t.toNat ∧ t.toNat ≤ 90)) :
    c.toLower = t ↔ c = t := by
  constructor
  · intro h
    have hn := congrArg Char.toNat h
    rw [toNat_toLower] at hn
    by_cases hc : 65 ≤ c.toNat ∧ c.toNat ≤ 90
    · rw [if_pos hc] at hn
      omega
    · rw [if_neg hc] at hn
      exact char_toNat_inj hn
  · rintro rfl
    exact char_toNat_inj (by rw [toNat_toLower, if_neg h2])

/-! ### The classifier against the spec wording -/

/-- The spec wording: the first two characters, read case-insensitively,
are a zero followed by one of the base letters b, o, x. -/
def hasBaseMarker (s : String) : Prop :=
  ∃ c r, s.data = '0' :: c :: r ∧ c ∈ ['b', 'B', 'o', 'O', 'x', 'X']

theorem take2_lower_eq (l : List Char) (t u : Char) (h1 : 97 ≤ t.toNat)
    (h2 : t.toNat ≤ 122) (hu : u.toNat + 32 = t.toNat) :
    pyLower (l.take 2) = ['0', t] ↔ ∃ c r, l = '0' :: c :: r ∧ (c = t ∨ c = u) := by
  match l with
  | [] => simp [pyLower]
  | [a] => simp [pyLower]
  | a :: c :: r =>
      constructor
      · intro h
        have h' : a.toLower = '0' ∧ c.toLower = t := by
          simpa [pyLower] using h
        refine ⟨c, r, ?_, (toLower_eq_letter c t u h1 h2 hu).mp h'.2⟩
        rw [(toLower_eq_nonletter a '0' (by decide) (by decide)).mp h'.1]
      · rintro ⟨c2, r2, heq, hc⟩
        obtain ⟨rfl, rfl, rfl⟩ : a = '0' ∧ c = c2 ∧ r = r2 := by
          simpa using heq
        have ec : Char.toLower c = t := (toLower_eq_letter c t u h1 h2 hu).mpr hc
        have e0 : Char.toLower '0' = '0' := by decide
        simp [pyLower, ec, e0]

theorem mem_pyLower_e (l : List Char) :
    'e' ∈ pyLower l ↔ ('e' ∈ l ∨ 'E' ∈ l) := by
  simp only [pyLower, List.mem_map]
  constructor
  · rintro ⟨c, hc, h⟩
    rcases (toLower_eq_letter c 'e' 'E' (by decide) (by decide) (by decide)).mp h
      with rfl | rfl
    · exact Or.inl hc
    · exact Or.inr hc
  · rintro (h | h)
    · exact ⟨'e', h, by decide⟩
    · exact ⟨'E', h, by decide⟩

/-- Claim C4: the classifier is total (it is a Lean function into the six
family enumeration) and follows the spec ordering: a case-insensitive 0b,
0o, 0x start forces Binary, Octal, Hexadecimal whatever the rest of the
string holds; otherwise a letter e or E anywhere gives ExponentFloat;
otherwise a dot gives PointFloat; otherwise Decimal.  In particular the
string 0x1e is Hexadecimal, not ExponentFloat. -/
theorem C4_classify (s : String) :
    (∀ c r, s.data = '0' :: c :: r → (c = 'b' ∨ c = 'B') →
        LITERAL_TYPE.of s = .BIN)
    ∧ (∀ c r, s.data = '0' :: c :: r → (c = 'o' ∨ c = 'O') →
        LITERAL_TYPE.of s = .OCT)
    ∧ (∀ c r, s.data = '0' :: c :: r → (c = 'x' ∨ c = 'X') →
        LITERAL_TYPE.of s = .HEX)
    ∧ (¬hasBaseMarker s → ('e' ∈ s.data ∨ 'E' ∈ s.data) →
        LITERAL_TYPE.of s = .EXPONENTFLOAT)
    ∧ (¬hasBaseMarker s → ¬('e' ∈ s.data ∨ 'E' ∈ s.data) → '.' ∈ s.data →
        LITERAL_TYPE.of s = .POINTFLOAT)
    ∧ (¬hasBaseMarker s → ¬('e' ∈ s.data ∨ 'E' ∈ s.data) → '.' ∉ s.data →
        LITERAL_TYPE.of s = .DEC)
    ∧ LITERAL_TYPE.of "0x1e" = .HEX := by
  have keyB := take2_lower_eq s.data 'b' 'B' (by decide) (by decide) (by decide)
  have keyO := take2_lower_eq s.data 'o' 'O' (by decide) (by decide) (by decide)
  have keyX := take2_lower_eq s.data 'x' 'X' (by decide) (by decide) (by decide)
  refine ⟨?_, ?_, ?_, ?_, ?_, ?_, by decide⟩
  · intro c r hd hc
    have hb : pyLower (s.data.take 2) = ['0', 'b'] := keyB.mpr ⟨c, r, hd, hc⟩
    simp only [LITERAL_TYPE.of]
    rw [if_pos hb]
  · intro c r hd hc
    have ho : pyLower (s.data.take 2) = ['0', 'o'] := keyO.mpr ⟨c, r, hd, hc⟩
    simp only [LITERAL_TYPE.of]
    rw [ho, if_neg (by decide), if_pos rfl]
  · intro c r hd hc
    have hx : pyLower (s.data.take 2) = ['0', 'x'] := keyX.mpr ⟨c, r, hd, hc⟩
    simp only [LITERAL_TYPE.of]
    rw [hx, if_neg (by decide), if_neg (by decide), if_pos rfl]
  all_goals intro hno
  all_goals
    have hnb : pyLower (s.data.take 2) ≠ ['0', 'b'] := by
      intro hb
      obtain ⟨c, r, hd, hc⟩ := keyB.mp hb
      exact hno ⟨c, r, hd, by rcases hc with rfl | rfl <;> decide⟩
  all_goals
    have hno2 : pyLower (s.data.take 2) ≠ ['0', 'o'] := by
      intro hb
      obtain ⟨c, r, hd, hc⟩ := keyO.mp hb
      exact hno ⟨c, r, hd, by rcases hc with rfl | rfl <;> decide⟩
  all_goals
    have hnx : pyLower (s.data.take 2) ≠ ['0', 'x'] := by
      intro hb
      obtain ⟨c, r, hd, hc⟩ := keyX.mp hb
      exact hno ⟨c, r, hd, by rcases hc with rfl | rfl <;> decide⟩
  · intro he
    have he' : 'e' ∈ pyLower s.data := (mem_pyLower_e s.data).mpr he
    simp only [LITERAL_TYPE.of]
    rw [if_neg hnb, if_neg hno2, if_neg hnx, if_pos he']
  · intro he hdot
    have he' : 'e' ∉ pyLower s.data := fun h => he ((mem_pyLower_e s.data).mp h)
    simp only [LITERAL_TYPE.of]
    rw [if_neg hnb, if_neg hno2, if_neg hnx, if_neg he', if_pos hdot]
  · intro he hdot
    have he' : 'e' ∉ pyLower s.data := fun h => he ((mem_pyLower_e s.data).mp h)
    simp only [LITERAL_TYPE.of]
    rw [if_neg hnb, if_neg hno2, if_neg hnx, if_neg he', if_neg hdot]

/-- Witness for C4_classify: the binary token text 0b101. -/
theorem C4_classify_witness :
    "0b101".data = '0' :: 'b' :: ['1', '0', '1']
    ∧ ('b' = 'b' ∨ 'b' = 'B')
    ∧ LITERAL_TYPE.of "0b101" = .BIN :=
  ⟨by decide, Or.inl rfl,
   (C4_classify "0b101").1 'b' ['1', '0', '1'] (by decide) (Or.inl rfl)⟩

/-! ### Facts about the validator walk -/

/-- Whatever state the walk is in, a string whose last character is the
separator can never finish validly: the walk either rejects earlier, or
reaches the end with a freshly reset run of length 0 ≠ len_. -/
theorem findInvalidSepGo_trailing (w : Nat) (hw : 0 < w) :
    ∀ (l : List Char) (i : Nat) (tl : Bool) (cl : Nat),
      l.getLast? = some SEPARATOR → findInvalidSepGo w l i tl cl ≠ none := by
  intro l
  induction l with
  | nil => intro i tl cl h; simp at h
  | cons c rest ih =>
      intro i tl cl h
      cases rest with
      | nil =>
          have hc : c = SEPARATOR := by simpa using h
          subst hc
          by_cases h1 : cl = w
          · have e1 : findInvalidSepGo w [SEPARATOR] i tl cl
                = findInvalidSepGo w [] (i + 1) tl 0 := by
              simp [findInvalidSepGo, h1]
            rw [e1]
            simp only [findInvalidSepGo]
            rw [if_pos (by omega : (0 : Nat) ≠ w)]
            simp
          · by_cases h2 : cl < w ∧ tl = true
            · have e2 : findInvalidSepGo w [SEPARATOR] i tl cl
                  = findInvalidSepGo w [] (i + 1) false 0 := by
                simp [findInvalidSepGo, h1, h2.1, h2.2]
              rw [e2]
              simp only [findInvalidSepGo]
              rw [if_pos (by omega : (0 : Nat) ≠ w)]
              simp
            · have e3 : findInvalidSepGo w [SEPARATOR] i tl cl = some i := by
                simp only [findInvalidSepGo, if_pos rfl]
                rw [if_neg h1, if_neg h2]
                simp
              rw [e3]
              simp
      | cons d rest2 =>
          have h2 : (d :: rest2).getLast? = some SEPARATOR := by
            rw [List.getLast?_cons_cons] at h
            exact h
          simp only [findInvalidSepGo]
          split
          · split
            · exact ih (i + 1) tl 0 h2
            · split
              · exact ih (i + 1) false 0 h2
              · simp
          · split
            · simp
            · exact ih (i + 1) tl (cl + 1) h2

/-- Claim C1 (code evaluated at the failing input): the body "1" contains
no separator and its length 1 is at most the decimal width 3, yet
find_invalid_sep reports position 1, and the checker run on the decimal
token "1" emits a diagnostic. -/
theorem C1_eval :
    find_invalid_sep "1" 3 = some 1
    ∧ "1".data.length ≤ Checker.dec_len
    ∧ SEPARATOR ∉ "1".data
    ∧ runTokens [⟨NUMBER, "1", (1, 0), (1, 1)⟩]
        = ([⟨1, 1, "NSP001 DEC Invalid", none⟩], none) :=
  ⟨rfl, by decide, by decide, rfl⟩

/-- Claim C2 (counterexample): the claim states that a separator at
position 0, and two consecutive separators, always make validation fail;
but the walk spends its one short-group concession on the empty segment,
so both "_100" (leading separator) and "100__100" (doubled separator)
validate at width 3. -/
theorem C2_counterexample :
    find_invalid_sep "_100" 3 = none
    ∧ "_100".data.get? 0 = some SEPARATOR
    ∧ find_invalid_sep "100__100" 3 = none
    ∧ "100__100".data.get? 3 = some SEPARATOR
    ∧ "100__100".data.get? 4 = some SEPARATOR :=
  ⟨rfl, rfl, rfl, rfl, rfl⟩

/-- Claim C2 (amended): for every body and every positive width, a
separator immediately before the end of the body makes validation fail;
a leading or doubled separator is not always rejected (see the
counterexample). -/
theorem C2_trailing (body : String) (w : Nat) (hw : 0 < w)
    (h : body.data.getLast? = some SEPARATOR) :
    find_invalid_sep body w ≠ none :=
  findInvalidSepGo_trailing w hw body.data 0 true 0 h

/-- Witness for C2_trailing at body "10_" and width 3. -/
theorem C2_trailing_witness :
    0 < 3 ∧ "10_".data.getLast? = some SEPARATOR
    ∧ find_invalid_sep "10_" 3 ≠ none :=
  ⟨by decide, by decide, C2_trailing "10_" 3 (by decide) (by decide)⟩

/-- Claim C3: a token classified PointFloat or ExponentFloat dispatches to
a stub that signals the raised NotImplemented condition; it never returns
an ok list of diagnostics, and running a stream consisting of such a
numeric token yields no diagnostics together with the raised condition. -/
theorem C3_unimplemented_families (t : TokenInfo)
    (h : LITERAL_TYPE.of t.string = .POINTFLOAT
       ∨ LITERAL_TYPE.of t.string = .EXPONENTFLOAT) :
    Checker.checkFor (LITERAL_TYPE.of t.string) t = .error PyRaise.notImplemented
    ∧ (∀ ds : List Diagnostic,
        Checker.checkFor (LITERAL_TYPE.of t.string) t ≠ .ok ds)
    ∧ (t.type = NUMBER →
        runTokens [t] = ([], some PyRaise.notImplemented)) := by
  have hcf : Checker.checkFor (LITERAL_TYPE.of t.string) t
      = .error PyRaise.notImplemented := by
    rcases h with h | h <;> rw [h] <;> rfl
  refine ⟨hcf, ?_, ?_⟩
  · intro ds hds
    rw [hcf] at hds
    exact Except.noConfusion hds
  · intro hnum
    simp [runTokens, hnum, hcf]

/-- Witness for C3_unimplemented_families at the point-float token
"1.5". -/
theorem C3_unimplemented_families_witness :
    (LITERAL_TYPE.of "1.5" = .POINTFLOAT ∨ LITERAL_TYPE.of "1.5" = .EXPONENTFLOAT)
    ∧ (Checker.checkFor (LITERAL_TYPE.of "1.5") ⟨NUMBER, "1.5", (1, 0), (1, 3)⟩
        = .error PyRaise.notImplemented
      ∧ (∀ ds : List Diagnostic,
          Checker.checkFor (LITERAL_TYPE.of "1.5") ⟨NUMBER, "1.5", (1, 0), (1, 3)⟩
            ≠ .ok ds)
      ∧ ((⟨NUMBER, "1.5", (1, 0), (1, 3)⟩ : TokenInfo).type = NUMBER →
          runTokens [⟨NUMBER, "1.5", (1, 0), (1, 3)⟩]
            = ([], some PyRaise.notImplemented))) :=
  ⟨Or.inl (by decide),
   C3_unimplemented_families ⟨NUMBER, "1.5", (1, 0), (1, 3)⟩ (Or.inl (by decide))⟩

/-- Claim C5: the verdicts of the decimal validator (width dec_len = 3) on
the concrete scenarios of the specification. -/
theorem C5_decimal_scenarios :
    find_invalid_sep "1_000_000" Checker.dec_len = none
    ∧ find_invalid_sep "1000_000" Checker.dec_len = some 4
    ∧ find_invalid_sep "10_00" Checker.dec_len = some 5
    ∧ find_invalid_sep "1000000" Checker.dec_len = some 4 :=
  ⟨rfl, rfl, rfl, rfl⟩

/-- Claim C7: the per-family widths are Decimal 3, Binary 4, Octal 4,
Hexadecimal 4, PointFloat 3, ExponentFloat 3, and the dispatch binds each
implemented family to the validator at its width and strip rule: Decimal
validates the whole token text, Binary, Octal and Hexadecimal validate the
text with its first two characters stripped. -/
theorem C7_dispatch_widths :
    Checker.dec_len = 3 ∧ Checker.bin_len = 4 ∧ Checker.oct_len = 4
    ∧ Checker.hex_len = 4 ∧ Checker.point_len = 3 ∧ Checker.exponent_len = 3
    ∧ (∀ t, Checker.checkFor .DEC t = .ok (Checker.check_DEC t))
    ∧ (∀ t, Checker.check_DEC t = [] ↔ find_invalid_sep t.string 3 = none)
    ∧ (∀ t, Checker.checkFor .BIN t = .ok (Checker.check_BIN t))
    ∧ (∀ t, Checker.check_BIN t = [] ↔ find_invalid_sep (t.string.drop 2) 4 = none)
    ∧ (∀ t, Checker.checkFor .OCT t = .ok (Checker.check_OCT t))
    ∧ (∀ t, Checker.check_OCT t = [] ↔ find_invalid_sep (t.string.drop 2) 4 = none)
    ∧ (∀ t, Checker.checkFor .HEX t = .ok (Checker.check_HEX t))
    ∧ (∀ t, Checker.check_HEX t = [] ↔ find_invalid_sep (t.string.drop 2) 4 = none) := by
  refine ⟨rfl, rfl, rfl, rfl, rfl, rfl, fun t => rfl, ?_, fun t => rfl, ?_,
    fun t => rfl, ?_, fun t => rfl, ?_⟩
  · intro t
    cases hm : find_invalid_sep t.string 3 with
    | none => simp [Checker.check_DEC, Checker.dec_len, hm]
    | some i => simp [Checker.check_DEC, Checker.dec_len, hm]
  · intro t
    cases hm : find_invalid_sep (t.string.drop 2) 4 with
    | none => simp [Checker.check_BIN, Checker.bin_len, hm]
    | some i => simp [Checker.check_BIN, Checker.bin_len, hm]
  · intro t
    cases hm : find_invalid_sep (t.string.drop 2) 4 with
    | none => simp [Checker.check_OCT, Checker.oct_len, hm]
    | some i => simp [Checker.check_OCT, Checker.oct_len, hm]
  · intro t
    cases hm : find_invalid_sep (t.string.drop 2) 4 with
    | none => simp [Checker.check_HEX, Checker.hex_len, hm]
    | some i => simp [Checker.check_HEX, Checker.hex_len, hm]

/-! ### Per-token diagnostics and the run invariant -/

/-- The width the dispatch binds to each family (the Checker class
attributes). -/
def familyLen : LITERAL_TYPE → Nat
  | .DEC => Checker.dec_len
  | .BIN => Checker.bin_len
  | .OCT => Checker.oct_len
  | .HEX => Checker.hex_len
  | .POINTFLOAT => Checker.point_len
  | .EXPONENTFLOAT => Checker.exponent_len

/-- The part of the token text each family validates: Binary, Octal and
Hexadecimal strip the two leading characters, Decimal keeps the whole
text. -/
def familyBody (lt : LITERAL_TYPE) (s : String) : String :=
  match lt with
  | .BIN => s.drop 2
  | .OCT => s.drop 2
  | .HEX => s.drop 2
  | _ => s

/-- The families whose check method is implemented (not a raising stub). -/
def implementedFamily : LITERAL_TYPE → Bool
  | .POINTFLOAT => false
  | .EXPONENTFLOAT => false
  | _ => true

/-- The diagnostics one token contributes to a run: none for non-numeric
tokens, the dispatched check result for numeric tokens of an implemented
family. -/
def tokenDiags (t : TokenInfo) : List Diagnostic :=
  if t.type = NUMBER then
    match Checker.checkFor (LITERAL_TYPE.of t.string) t with
    | .ok ds => ds
    | .error _ => []
  else []

theorem tokenDiags_spec (t : TokenInfo) (hnum : t.type = NUMBER)
    (himp : implementedFamily (LITERAL_TYPE.of t.string) = true) :
    ((tokenDiags t).length = 1 ↔
      find_invalid_sep (familyBody (LITERAL_TYPE.of t.string) t.string)
        (familyLen (LITERAL_TYPE.of t.string)) ≠ none)
    ∧ (tokenDiags t = [] ↔
      find_invalid_sep (familyBody (LITERAL_TYPE.of t.string) t.string)
        (familyLen (LITERAL_TYPE.of t.string)) = none) := by
  cases hEq : LITERAL_TYPE.of t.string with
  | DEC =>
      simp only [tokenDiags, hnum, if_pos, hEq, Checker.checkFor,
        familyBody, familyLen]
      cases hm : find_invalid_sep t.string Checker.dec_len with
      | some i => simp [Checker.check_DEC, hm]
      | none => simp [Checker.check_DEC, hm]
  | BIN =>
      simp only [tokenDiags, hnum, if_pos, hEq, Checker.checkFor,
        familyBody, familyLen]
      cases hm : find_invalid_sep (t.string.drop 2) Checker.bin_len with
      | some i => simp [Checker.check_BIN, hm]
      | none => simp [Checker.check_BIN, hm]
  | OCT =>
      simp only [tokenDiags, hnum, if_pos, hEq, Checker.checkFor,
        familyBody, familyLen]
      cases hm : find_invalid_sep (t.string.drop 2) Checker.oct_len with
      | some i => simp [Checker.check_OCT, hm]
      | none => simp [Checker.check_OCT, hm]
  | HEX =>
      simp only [tokenDiags, hnum, if_pos, hEq, Checker.checkFor,
        familyBody, familyLen]
      cases hm : find_invalid_sep (t.string.drop 2) Checker.hex_len with
      | some i => simp [Checker.check_HEX, hm]
      | none => simp [Checker.check_HEX, hm]
  | POINTFLOAT => rw [hEq] at himp; simp [implementedFamily] at himp
  | EXPONENTFLOAT => rw [hEq] at himp; simp [implementedFamily] at himp

/-- On a stream whose numeric tokens all belong to implemented families,
the run terminates normally and yields exactly the concatenation of the
per-token diagnostics. -/
theorem runTokens_eq_flatMap : ∀ (ts : List TokenInfo),
    (∀ t ∈ ts, t.type = NUMBER →
      implementedFamily (LITERAL_TYPE.of t.string) = true) →
    runTokens ts = (ts.flatMap tokenDiags, none)
  | [], _ => rfl
  | t :: rest, h => by
      have ht : t.type = NUMBER →
          implementedFamily (LITERAL_TYPE.of t.string) = true :=
        fun hn => h t (by simp) hn
      have hrest := runTokens_eq_flatMap rest (fun x hx hn => h x (by simp [hx]) hn)
      by_cases hnum : t.type = NUMBER
      · cases hEq : LITERAL_TYPE.of t.string with
        | DEC =>
            simp [runTokens, hnum, hEq, Checker.checkFor, hrest, tokenDiags,
              List.flatMap_cons]
        | BIN =>
            simp [runTokens, hnum, hEq, Checker.checkFor, hrest, tokenDiags,
              List.flatMap_cons]
        | OCT =>
            simp [runTokens, hnum, hEq, Checker.checkFor, hrest, tokenDiags,
              List.flatMap_cons]
        | HEX =>
            simp [runTokens, hnum, hEq, Checker.checkFor, hrest, tokenDiags,
              List.flatMap_cons]
        | POINTFLOAT =>
            have := ht hnum
            rw [hEq] at this
            simp [implementedFamily] at this
        | EXPONENTFLOAT =>
            have := ht hnum
            rw [hEq] at this
            simp [implementedFamily] at this
      · simp [runTokens, hnum, hrest, tokenDiags, List.flatMap_cons]

/-- Claim C6: on a finite stream whose numeric tokens all classify to an
implemented family, the run yields exactly the per-token diagnostics in
order; a non-numeric token contributes none, and a numeric token
contributes exactly one diagnostic when its family validator fails and
none when it passes. -/
theorem C6_invariant (ts : List TokenInfo)
    (h : ∀ t ∈ ts, t.type = NUMBER →
      implementedFamily (LITERAL_TYPE.of t.string) = true) :
    runTokens ts = (ts.flatMap tokenDiags, none)
    ∧ ∀ t ∈ ts,
        (t.type ≠ NUMBER → tokenDiags t = [])
        ∧ (t.type = NUMBER →
            (((tokenDiags t).length = 1 ↔
               find_invalid_sep (familyBody (LITERAL_TYPE.of t.string) t.string)
                 (familyLen (LITERAL_TYPE.of t.string)) ≠ none)
             ∧ (tokenDiags t = [] ↔
               find_invalid_sep (familyBody (LITERAL_TYPE.of t.string) t.string)
                 (familyLen (LITERAL_TYPE.of t.string)) = none))) :=
  ⟨runTokens_eq_flatMap ts h, fun t ht =>
    ⟨fun hnn => by simp [tokenDiags, hnn],
     fun hnum => tokenDiags_spec t hnum (h t ht hnum)⟩⟩

/-- Witness for C6_invariant: a failing decimal token, a non-numeric
token, and a passing binary token. -/
theorem C6_invariant_witness :
    (∀ t ∈ [(⟨NUMBER, "10", (1, 0), (1, 2)⟩ : TokenInfo),
             ⟨1, "x", (1, 3), (1, 4)⟩, ⟨NUMBER, "0b1010", (2, 0), (2, 6)⟩],
        t.type = NUMBER → implementedFamily (LITERAL_TYPE.of t.string) = true)
    ∧ runTokens [(⟨NUMBER, "10", (1, 0), (1, 2)⟩ : TokenInfo),
        ⟨1, "x", (1, 3), (1, 4)⟩, ⟨NUMBER, "0b1010", (2, 0), (2, 6)⟩]
      = ([(⟨NUMBER, "10", (1, 0), (1, 2)⟩ : TokenInfo),
          ⟨1, "x", (1, 3), (1, 4)⟩,
          ⟨NUMBER, "0b1010", (2, 0), (2, 6)⟩].flatMap tokenDiags, none) :=
  ⟨by decide,
   (C6_invariant [⟨NUMBER, "10", (1, 0), (1, 2)⟩, ⟨1, "x", (1, 3), (1, 4)⟩,
      ⟨NUMBER, "0b1010", (2, 0), (2, 6)⟩] (by decide)).1⟩

/-! ### Message shape of emitted diagnostics -/

/-- The four messages the implemented check methods can emit. -/
def msgList : List String :=
  ["NSP001 DEC Invalid", "NSP011 BIN Invalid",
   "NSP021 OCT Invalid", "NSP031 HEX Invalid"]

/-- The per-family code and family mnemonic of each implemented family. -/
def msgTable : List (String × String) :=
  [("NSP001", "DEC"), ("NSP011", "BIN"), ("NSP021", "OCT"), ("NSP031", "HEX")]

theorem mem_check_DEC {t : TokenInfo} {d : Diagnostic}
    (h : d ∈ Checker.check_DEC t) :
    d.fix = none ∧ d.message = "NSP001 DEC Invalid" := by
  cases hm : find_invalid_sep t.string Checker.dec_len with
  | none => simp [Checker.check_DEC, hm] at h
  | some i =>
      simp [Checker.check_DEC, hm] at h
      subst h
      exact ⟨rfl, rfl⟩

theorem mem_check_BIN {t : TokenInfo} {d : Diagnostic}
    (h : d ∈ Checker.check_BIN t) :
    d.fix = none ∧ d.message = "NSP011 BIN Invalid" := by
  cases hm : find_invalid_sep (t.string.drop 2) Checker.bin_len with
  | none => simp [Checker.check_BIN, hm] at h
  | some i =>
      simp [Checker.check_BIN, hm] at h
      subst h
      exact ⟨rfl, rfl⟩

theorem mem_check_OCT {t : TokenInfo} {d : Diagnostic}
    (h : d ∈ Checker.check_OCT t) :
    d.fix = none ∧ d.message = "NSP021 OCT Invalid" := by
  cases hm : find_invalid_sep (t.string.drop 2) Checker.oct_len with
  | none => simp [Checker.check_OCT, hm] at h
  | some i =>
      simp [Checker.check_OCT, hm] at h
      subst h
      exact ⟨rfl, rfl⟩

theorem mem_check_HEX {t : TokenInfo} {d : Diagnostic}
    (h : d ∈ Checker.check_HEX t) :
    d.fix = none ∧ d.message = "NSP031 HEX Invalid" := by
  cases hm : find_invalid_sep (t.string.drop 2) Checker.hex_len with
  | none => simp [Checker.check_HEX, hm] at h
  | some i =>
      simp [Checker.check_HEX, hm] at h
      subst h
      exact ⟨rfl, rfl⟩

/-- Every diagnostic a run yields keeps the fourth tuple component None
and carries one of the four family messages. -/
theorem runTokens_messages : ∀ (ts : List TokenInfo) (d : Diagnostic),
    d ∈ (runTokens ts).1 → d.fix = none ∧ d.message ∈ msgList
  | [], d, hd => by simp [runTokens] at hd
  | t :: rest, d, hd => by
      by_cases hnum : t.type = NUMBER
      · cases hEq : LITERAL_TYPE.of t.string with
        | DEC =>
            have hrun : runTokens (t :: rest)
                = (Checker.check_DEC t ++ (runTokens rest).1, (runTokens rest).2) := by
              simp [runTokens, hnum, hEq, Checker.checkFor]
            rw [hrun] at hd
            rcases List.mem_append.mp hd with h1 | h2
            · obtain ⟨hfix, hmsg⟩ := mem_check_DEC h1
              exact ⟨hfix, by simp [msgList, hmsg]⟩
            · exact runTokens_messages rest d h2
        | BIN =>
            have hrun : runTokens (t :: rest)
                = (Checker.check_BIN t ++ (runTokens rest).1, (runTokens rest).2) := by
              simp [runTokens, hnum, hEq, Checker.checkFor]
            rw [hrun] at hd
            rcases List.mem_append.mp hd with h1 | h2
            · obtain ⟨hfix, hmsg⟩ := mem_check_BIN h1
              exact ⟨hfix, by simp [msgList, hmsg]⟩
            · exact runTokens_messages rest d h2
        | OCT =>
            have hrun : runTokens (t :: rest)
                = (Checker.check_OCT t ++ (runTokens rest).1, (runTokens rest).2) := by
              simp [runTokens, hnum, hEq, Checker.checkFor]
            rw [hrun] at hd
            rcases List.mem_append.mp hd with h1 | h2
            · obtain ⟨hfix, hmsg⟩ := mem_check_OCT h1
              exact ⟨hfix, by simp [msgList, hmsg]⟩
            · exact runTokens_messages rest d h2
        | HEX =>
            have hrun : runTokens (t :: rest)
                = (Checker.check_HEX t ++ (runTokens rest).1, (runTokens rest).2) := by
              simp [runTokens, hnum, hEq, Checker.checkFor]
            rw [hrun] at hd
            rcases List.mem_append.mp hd with h1 | h2
            · obtain ⟨hfix, hmsg⟩ := mem_check_HEX h1
              exact ⟨hfix, by simp [msgList, hmsg]⟩
            · exact runTokens_messages rest d h2
        | POINTFLOAT =>
            simp [runTokens, hnum, hEq, Checker.checkFor] at hd
        | EXPONENTFLOAT =>
            simp [runTokens, hnum, hEq, Checker.checkFor] at hd
      · have hrun : runTokens (t :: rest) = runTokens rest := by
          simp [runTokens, hnum]
        rw [hrun] at hd
        exact runTokens_messages rest d hd

/-- Claim C8: every emitted diagnostic is the 4-tuple (line, column,
message, None) whose message is of the shape code, family mnemonic and the
word Invalid separated by spaces, with a distinct code for each of the
four implemented families. -/
theorem C8_message_format (ts : List TokenInfo) (d : Diagnostic)
    (hd : d ∈ (runTokens ts).1) :
    d.fix = none
    ∧ (∃ code fam, (code, fam) ∈ msgTable
        ∧ d.message = code ++ " " ++ fam ++ " Invalid")
    ∧ msgTable.Pairwise (fun p q => p.1 ≠ q.1) := by
  obtain ⟨hfix, hmsg⟩ := runTokens_messages ts d hd
  refine ⟨hfix, ?_, by decide⟩
  simp only [msgList, List.mem_cons, List.not_mem_nil, or_false] at hmsg
  rcases hmsg with h | h | h | h
  · exact ⟨"NSP001", "DEC", by decide, by rw [h]; rfl⟩
  · exact ⟨"NSP011", "BIN", by decide, by rw [h]; rfl⟩
  · exact ⟨"NSP021", "OCT", by decide, by rw [h]; rfl⟩
  · exact ⟨"NSP031", "HEX", by decide, by rw [h]; rfl⟩

/-- Witness for C8_message_format: the diagnostic of the failing decimal
token "10". -/
theorem C8_message_format_witness :
    (⟨1, 2, "NSP001 DEC Invalid", none⟩ : Diagnostic).fix = none
    ∧ (∃ code fam, (code, fam) ∈ msgTable
        ∧ (⟨1, 2, "NSP001 DEC Invalid", none⟩ : Diagnostic).message
            = code ++ " " ++ fam ++ " Invalid")
    ∧ msgTable.Pairwise (fun p q => p.1 ≠ q.1) :=
  C8_message_format [⟨NUMBER, "10", (1, 0), (1, 2)⟩]
    ⟨1, 2, "NSP001 DEC Invalid", none⟩ (by decide)

/-- Claim C10: for a Binary, Octal or Hexadecimal token whose stripped
body fails validation at offset i, the diagnostic's column is the token's
start column plus i, the offset within the stripped body; it is not the
column of the offending character of the original token text, which sits
at index 2 + i, so the report lands two columns early, and when the
failure is the short final group detected at the end of the body the
reported column is the token's end column minus 2. -/
theorem C10_stripped_column (t : TokenInfo)
    (hend : t.end_.2 = t.start.2 + t.string.length)
    (hlen : 2 ≤ t.string.length) :
    (∀ i, find_invalid_sep (t.string.drop 2) Checker.bin_len = some i →
      Checker.check_BIN t
          = [⟨t.start.1, t.start.2 + i, "NSP011 BIN Invalid", none⟩]
        ∧ Checker.check_BIN t
          ≠ [⟨t.start.1, t.start.2 + (2 + i), "NSP011 BIN Invalid", none⟩]
        ∧ (∀ ch, (t.string.drop 2).data[i]? = some ch →
            t.string.data[2 + i]? = some ch)
        ∧ (i = (t.string.drop 2).length → t.start.2 + i = t.end_.2 - 2))
    ∧ (∀ i, find_invalid_sep (t.string.drop 2) Checker.oct_len = some i →
      Checker.check_OCT t
          = [⟨t.start.1, t.start.2 + i, "NSP021 OCT Invalid", none⟩]
        ∧ Checker.check_OCT t
          ≠ [⟨t.start.1, t.start.2 + (2 + i), "NSP021 OCT Invalid", none⟩]
        ∧ (∀ ch, (t.string.drop 2).data[i]? = some ch →
            t.string.data[2 + i]? = some ch)
        ∧ (i = (t.string.drop 2).length → t.start.2 + i = t.end_.2 - 2))
    ∧ (∀ i, find_invalid_sep (t.string.drop 2) Checker.hex_len = some i →
      Checker.check_HEX t
          = [⟨t.start.1, t.start.2 + i, "NSP031 HEX Invalid", none⟩]
        ∧ Checker.check_HEX t
          ≠ [⟨t.start.1, t.start.2 + (2 + i), "NSP031 HEX Invalid", none⟩]
        ∧ (∀ ch, (t.string.drop 2).data[i]? = some ch →
            t.string.data[2 + i]? = some ch)
        ∧ (i = (t.string.drop 2).length → t.start.2 + i = t.end_.2 - 2)) := by
  have hdata : (t.string.drop 2).data = t.string.data.drop 2 :=
    String.data_drop t.string 2
  have hlen2 : (t.string.drop 2).length = t.string.length - 2 := by
    rw [String.length, hdata, List.length_drop]
    rfl
  have hget : ∀ i (ch : Char), (t.string.drop 2).data[i]? = some ch →
      t.string.data[2 + i]? = some ch := by
    intro i ch hch
    rw [hdata, List.getElem?_drop] at hch
    exact hch
  have hcol : ∀ i, i = (t.string.drop 2).length →
      t.start.2 + i = t.end_.2 - 2 := by
    intro i hi
    rw [hend]
    omega
  refine ⟨?_, ?_, ?_⟩
  · intro i hm
    have he : Checker.check_BIN t
        = [⟨t.start.1, t.start.2 + i, "NSP011 BIN Invalid", none⟩] := by
      simp [Checker.check_BIN, hm]
    refine ⟨he, ?_, hget i, hcol i⟩
    intro heq
    rw [he] at heq
    simp only [List.cons.injEq, Diagnostic.mk.injEq, and_true] at heq
    omega
  · intro i hm
    have he : Checker.check_OCT t
        = [⟨t.start.1, t.start.2 + i, "NSP021 OCT Invalid", none⟩] := by
      simp [Checker.check_OCT, hm]
    refine ⟨he, ?_, hget i, hcol i⟩
    intro heq
    rw [he] at heq
    simp only [List.cons.injEq, Diagnostic.mk.injEq, and_true] at heq
    omega
  · intro i hm
    have he : Checker.check_HEX t
        = [⟨t.start.1, t.start.2 + i, "NSP031 HEX Invalid", none⟩] := by
      simp [Checker.check_HEX, hm]
    refine ⟨he, ?_, hget i, hcol i⟩
    intro heq
    rw [he] at heq
    simp only [List.cons.injEq, Diagnostic.mk.injEq, and_true] at heq
    omega

/-- Witness for C10_stripped_column: the binary token "0b1", whose body
"1" fails at offset 1 (the short final group), reported at column
start + 1 = end column minus 2. -/
theorem C10_stripped_column_witness :
    (⟨NUMBER, "0b1", (1, 0), (1, 3)⟩ : TokenInfo).end_.2
        = (⟨NUMBER, "0b1", (1, 0), (1, 3)⟩ : TokenInfo).start.2 + "0b1".length
    ∧ 2 ≤ "0b1".length
    ∧ find_invalid_sep ("0b1".drop 2) Checker.bin_len = some 1
    ∧ Checker.check_BIN ⟨NUMBER, "0b1", (1, 0), (1, 3)⟩
        = [⟨1, 1, "NSP011 BIN Invalid", none⟩] :=
  ⟨by decide, by decide, by decide,
   ((C10_stripped_column ⟨NUMBER, "0b1", (1, 0), (1, 3)⟩ (by decide)
      (by decide)).1 1 (by decide)).1⟩

/-- Claim C9: the diagnostics of a run depend only on the token stream:
two checker instances over the same token sequence (whatever their trees)
produce equal diagnostic sequences. -/
theorem C9_deterministic (c1 c2 : Checker) (h : c1.file_tokens = c2.file_tokens) :
    Checker.run c1 = Checker.run c2 := by
  simp [Checker.run, h]

/-- Witness for C9_deterministic: two instances with distinct trees and the
same one-token stream. -/
theorem C9_deterministic_witness :
    Checker.run ⟨0, [⟨NUMBER, "10", (1, 0), (1, 2)⟩]⟩
      = Checker.run ⟨7, [⟨NUMBER, "10", (1, 0), (1, 2)⟩]⟩ :=
  C9_deterministic ⟨0, [⟨NUMBER, "10", (1, 0), (1, 2)⟩]⟩
    ⟨7, [⟨NUMBER, "10", (1, 0), (1, 2)⟩]⟩ rfl

end Pep515
